import Mathlib

/-!
Verification of the transmiBot streaming bridge, status presenter and chat
turn controller (src/app/agents/transmi_agent/agent.py and
src/app/telegram/handlers.py), as a shallow embedding in Lean.

Modelling conventions:
* A Turn Event (google ADK event) is reduced to the fields the bridge reads:
  the list of parts (each with an optional text) and the is-final marker.
* The Event Source for one run is represented by the finite list of events it
  yields before it either finishes normally or raises, together with a boolean
  saying whether it then raises (`srcRaises`).
* Side effects of the Telegram handler are reified as a trace of actions,
  with transport calls assumed to succeed (the claims are about which calls
  are issued and in which order).
-/

/-- One part of an ADK event content: the bridge only reads `part.text`,
which may be absent or not a string (modelled as `none`). -/
structure EvPart where
  text : Option String
  deriving Repr, DecidableEq

/-- A Turn Event as consumed by `_run_agent_sync`: the list of content parts
and the result of `event.is_final_response()`. An event whose `content`
attribute is `None` is modelled as one with an empty `parts` list, since the
bridge treats both identically (no text segments, skipped). -/
structure Event where
  parts : List EvPart
  isFinal : Bool
  deriving Repr, DecidableEq

/-- Whitespace characters removed by Python `str.strip()` (restricted to the
ASCII whitespace class; unicode whitespace is not needed by the claims). -/
def pyIsSpace (c : Char) : Bool :=
  c == ' ' || c == '\t' || c == '\n' || c == '\r' || c == Char.ofNat 11 || c == Char.ofNat 12

/-- Python `str.strip()`: drop leading and trailing whitespace. -/
def pyStrip (s : String) : String :=
  String.mk (((s.data.dropWhile pyIsSpace).reverse.dropWhile pyIsSpace).reverse)

/-- Text extraction of agent.py lines 168-181: keep each part text that is a
string and non-empty after stripping, and join the kept segments with a
double newline; `none` when no segment survives (the event is skipped). -/
def renderEvent (e : Event) : Option String :=
  let segs := e.parts.filterMap (fun p =>
    match p.text with
    | none => none
    | some t =>
      let n := pyStrip t
      if n = "" then none else some n)
  if segs.isEmpty then none else some (String.intercalate "\n\n" segs)

/-- The event loop of `_run_agent_sync` (agent.py lines 160-188): given the
events yielded by the Event Source, the deduplication state `prev`
(`previous_message`, initially `none`) and the final-answer accumulator `fin`
(`final_answer`, initially `none`), return the list of emitted chunk texts in
order together with the final value of `final_answer`. -/
def runWorker : List Event → Option String → Option String → List String × Option String
  | [], _, fin => ([], fin)
  | e :: es, prev, fin =>
    match renderEvent e with
    | none => runWorker es prev fin
    | some m =>
      let fin' := if e.isFinal then some m else fin
      if prev = some m then
        runWorker es prev fin'
      else
        (m :: (runWorker es (some m) fin').1, (runWorker es (some m) fin').2)

lemma runWorker_cons_none (e : Event) (es : List Event) (prev fin : Option String)
    (h : renderEvent e = none) :
    runWorker (e :: es) prev fin = runWorker es prev fin := by
  simp [runWorker, h]

lemma runWorker_cons_skip (e : Event) (es : List Event) (prev fin : Option String)
    (m : String) (h : renderEvent e = some m) (hp : prev = some m) :
    runWorker (e :: es) prev fin =
      runWorker es prev (if e.isFinal then some m else fin) := by
  simp [runWorker, h, hp]

lemma runWorker_cons_emit (e : Event) (es : List Event) (prev fin : Option String)
    (m : String) (h : renderEvent e = some m) (hp : prev ≠ some m) :
    runWorker (e :: es) prev fin =
      (m :: (runWorker es (some m) (if e.isFinal then some m else fin)).1,
        (runWorker es (some m) (if e.isFinal then some m else fin)).2) := by
  simp [runWorker, h, hp]

/-- Invariant of the deduplicating event loop: the head of the emitted chunk
list differs from the current `previous_message` state, no two consecutive
emitted chunks are equal, and every emitted chunk is the rendering of one of
the input events. -/
lemma runWorker_spec (evts : List Event) : ∀ prev fin : Option String,
    (∀ c : String, ((runWorker evts prev fin).1.head? = some c) → prev ≠ some c) ∧
    List.Chain' (fun a b => a ≠ b) (runWorker evts prev fin).1 ∧
    ∀ c ∈ (runWorker evts prev fin).1, ∃ e ∈ evts, renderEvent e = some c := by
  induction evts with
  | nil =>
    intro prev fin
    refine ⟨?_, ?_, ?_⟩ <;> simp [runWorker]
  | cons e es ih =>
    intro prev fin
    cases hre : renderEvent e with
    | none =>
      rw [runWorker_cons_none e es prev fin hre]
      obtain ⟨h1, h2, h3⟩ := ih prev fin
      refine ⟨h1, h2, ?_⟩
      intro c hc
      obtain ⟨e2, he2, hr2⟩ := h3 c hc
      exact ⟨e2, List.mem_cons_of_mem _ he2, hr2⟩
    | some m =>
      by_cases hp : prev = some m
      · rw [runWorker_cons_skip e es prev fin m hre hp]
        obtain ⟨h1, h2, h3⟩ := ih prev (if e.isFinal then some m else fin)
        refine ⟨h1, h2, ?_⟩
        intro c hc
        obtain ⟨e2, he2, hr2⟩ := h3 c hc
        exact ⟨e2, List.mem_cons_of_mem _ he2, hr2⟩
      · rw [runWorker_cons_emit e es prev fin m hre hp]
        obtain ⟨h1, h2, h3⟩ := ih (some m) (if e.isFinal then some m else fin)
        refine ⟨?_, ?_, ?_⟩
        · intro c hc
          simp only [List.head?_cons, Option.some.injEq] at hc
          rw [← hc]
          exact hp
        · refine List.chain'_cons'.mpr ⟨?_, h2⟩
          intro b hb
          intro hmb
          exact h1 b hb (by rw [hmb])
        · intro c hc
          rcases List.mem_cons.mp hc with hc | hc
          · exact ⟨e, List.mem_cons_self e es, by rw [hre, hc]⟩
          · obtain ⟨e2, he2, hr2⟩ := h3 c hc
            exact ⟨e2, List.mem_cons_of_mem _ he2, hr2⟩

/-- C2: for every finite sequence of Turn Events processed by one stream of
the Streaming Bridge (`_run_agent_sync`), including sequences with repeated
identical text, the emitted Response Chunk sequence contains no two
consecutive equal texts, and each chunk's text is the double-newline join of
some event's non-empty stripped text parts. -/
theorem bridge_dedup_invariant (evts : List Event) :
    List.Chain' (fun a b => a ≠ b) (runWorker evts none none).1 ∧
    ∀ c ∈ (runWorker evts none none).1, ∃ e ∈ evts, renderEvent e = some c :=
  ⟨(runWorker_spec evts none none).2.1, (runWorker_spec evts none none).2.2⟩

/-- Items pushed onto the hand-off channel by one run of `_run_agent_sync`
(agent.py lines 156-194): each emitted chunk is pushed as `some text` in
order, and the `finally` block (line 193-194) pushes the `none` sentinel on
every exit path — normal completion, the `RuntimeError` raised when no final
answer was seen (line 191), and a raise from the Event Source mid-iteration
(in which case `evts` is the prefix of events yielded before the raise and
`srcRaises` is `true`). -/
def workerItems (evts : List Event) (_srcRaises : Bool) : List (Option String) :=
  (runWorker evts none none).1.map some ++ [none]

lemma map_some_count_none (l : List String) :
    (l.map some).count (none : Option String) = 0 := by
  induction l with
  | nil => simp
  | cons a l ih => simp [ih]

lemma getLast_append_one {α : Type} (l : List α) (a : α) :
    (l ++ [a]).getLast? = some a := by
  induction l with
  | nil => simp
  | cons x l ih =>
    rw [List.cons_append, List.getLast?_cons, ih]
    cases l <;> simp_all

/-- Shared form of the sentinel guarantee, used both for the C3 theorem and
for the no-final-marker analysis. -/
lemma workerItems_sentinel (evts : List Event) (b : Bool) :
    (workerItems evts b).count none = 1 ∧
    (workerItems evts b).getLast? = some none := by
  constructor
  · simp [workerItems, List.count_append, map_some_count_none]
  · exact getLast_append_one _ _

/-- C3: for every execution of the Streaming Bridge worker, whether the
Event Source iteration completes normally or raises at any point (any event
prefix `evts`, any `srcRaises`), exactly one end-of-stream sentinel (`none`)
is pushed onto the hand-off channel, and it is the last item pushed, after
all chunk pushes — the push sits in the worker's guaranteed-execution
(`finally`) block. -/
theorem worker_sentinel_exactly_once (evts : List Event) (srcRaises : Bool) :
    (workerItems evts srcRaises).count none = 1 ∧
    (workerItems evts srcRaises).getLast? = some none :=
  workerItems_sentinel evts srcRaises

/-- The observable outcome of one `invoke_agent` stream, as seen by the
async consumer (agent.py lines 225-232): the chunks yielded in order, and
whether the turn ended with an error. The consumer reads queue items until
the `none` sentinel and then awaits the worker task, so it errors exactly
when the worker raised: either the Event Source raised, or `final_answer`
stayed `none` and the worker raised `RuntimeError` (agent.py line 190-191). -/
structure StreamOutcome where
  chunks : List String
  errored : Bool
  deriving Repr, DecidableEq

/-- The stream outcome produced by `invoke_agent` for a given Event Source
behaviour. -/
def invokeAgentModel (evts : List Event) (srcRaises : Bool) : StreamOutcome :=
  { chunks := (runWorker evts none none).1
    errored := srcRaises || (runWorker evts none none).2.isNone }

/-- The side effects of `handle_text` (handlers.py), reified as a trace.
Transport calls are modelled as always succeeding; timers and logging of
exceptions are omitted. -/
inductive TurnAct where
  | logUpsertUser
  | logUserMessage
  | sendPlaceholder
  | startPresenter
  | setStop
  | cancelPresenter
  | logAssistant (text : String)
  | editStatus (text : String)
  | sendMessage (text : String)
  | closeStream
  deriving Repr, DecidableEq

/-- The generic failure message of handlers.py (lines 197-199, 208-209,
265-271; all three literals concatenate to the same text). -/
def failureText : String :=
  "Lo siento, ocurrió un error al consultar al agente. Inténtalo de nuevo más tarde."

/-- The Chat Turn Controller logic of handlers.py lines 189-274, given the
outcome of the agent stream: which transport/bookkeeping calls are issued,
in order.
* no chunks, errored: first read raises, the `except Exception` arm
  (lines 202-212) sets the stop flag, cancels and gathers both presenter
  tasks, edits the placeholder to the failure text, and closes the stream.
* no chunks, clean: the `except StopAsyncIteration` arm (lines 191-201)
  stops the presenter, closes the stream, then edits in the failure text.
* first chunk obtained (lines 214-274): stop flag set, presenter cancelled
  and gathered, the first response logged and edited into the placeholder,
  each further chunk sent as a new message and logged; if the stream ends
  with an error the `except` arm (lines 263-271) sends one failure message;
  the `finally` (lines 272-274) sets the stop flag again and closes the
  stream. -/
def handleTurn (s : StreamOutcome) : List TurnAct :=
  match s.chunks with
  | [] =>
    if s.errored then
      [TurnAct.setStop, TurnAct.cancelPresenter, TurnAct.editStatus failureText,
        TurnAct.closeStream]
    else
      [TurnAct.setStop, TurnAct.cancelPresenter, TurnAct.closeStream,
        TurnAct.editStatus failureText]
  | first :: rest =>
    [TurnAct.setStop, TurnAct.cancelPresenter, TurnAct.logAssistant first,
      TurnAct.editStatus first]
    ++ rest.flatMap (fun c => [TurnAct.sendMessage c, TurnAct.logAssistant c])
    ++ (if s.errored then [TurnAct.sendMessage failureText] else [])
    ++ [TurnAct.setStop, TurnAct.closeStream]

/-- Actions that deliver text to the chat transport. -/
def isTransportDelivery : TurnAct → Bool
  | TurnAct.editStatus _ => true
  | TurnAct.sendMessage _ => true
  | _ => false

/-- Whether a transport action carries the generic failure message. -/
def isFailureMsg : TurnAct → Bool
  | TurnAct.editStatus t => t == failureText
  | TurnAct.sendMessage t => t == failureText
  | _ => false

lemma flatMap_send_log_transport (cs : List String) :
    ((cs.flatMap fun t => [TurnAct.sendMessage t, TurnAct.logAssistant t]).filter
      isTransportDelivery) = cs.map TurnAct.sendMessage := by
  induction cs with
  | nil => simp
  | cons c cs ih => simp [List.flatMap_cons, List.filter_append, ih, isTransportDelivery]

lemma flatMap_send_log_no_close (cs : List String) :
    (cs.flatMap fun t => [TurnAct.sendMessage t, TurnAct.logAssistant t]).count
      TurnAct.closeStream = 0 := by
  induction cs with
  | nil => simp
  | cons c cs ih => simp [List.flatMap_cons, List.count_append, ih, List.count_cons]

lemma runWorker_fin_const : ∀ (evts : List Event) (prev fin : Option String),
    (∀ e ∈ evts, e.isFinal = false) → (runWorker evts prev fin).2 = fin := by
  intro evts
  induction evts with
  | nil => intro prev fin _; simp [runWorker]
  | cons e es ih =>
    intro prev fin h
    have hf : e.isFinal = false := h e (List.mem_cons_self e es)
    have hes : ∀ e2 ∈ es, e2.isFinal = false :=
      fun e2 he2 => h e2 (List.mem_cons_of_mem _ he2)
    cases hre : renderEvent e with
    | none =>
      rw [runWorker_cons_none e es prev fin hre]
      exact ih prev fin hes
    | some m =>
      by_cases hp : prev = some m
      · rw [runWorker_cons_skip e es prev fin m hre hp, hf]
        simpa using ih prev fin hes
      · rw [runWorker_cons_emit e es prev fin m hre hp, hf]
        simpa using ih (some m) fin hes

lemma runWorker_all_none : ∀ (evts : List Event) (prev fin : Option String),
    (∀ e ∈ evts, renderEvent e = none) → runWorker evts prev fin = ([], fin) := by
  intro evts
  induction evts with
  | nil => intro prev fin _; simp [runWorker]
  | cons e es ih =>
    intro prev fin h
    rw [runWorker_cons_none e es prev fin (h e (List.mem_cons_self e es))]
    exact ih prev fin (fun e2 he2 => h e2 (List.mem_cons_of_mem _ he2))

/-- C4: if the Event Source raises after the worker has emitted the chunks
`c :: cs`, the Controller issues exactly these transport calls: it edits the
placeholder to the first chunk, sends each further chunk as a new message in
order, and then sends exactly one generic failure message; the stream is
closed exactly once. The outcome is observably distinct from a clean end
(`errored = false`) and from an error before any chunk (`chunks = []`). -/
theorem controller_delivers_then_fails (evts : List Event) (b : Bool) (c : String)
    (cs : List String)
    (h1 : (invokeAgentModel evts b).chunks = c :: cs)
    (h2 : (invokeAgentModel evts b).errored = true) :
    ((handleTurn (invokeAgentModel evts b)).filter isTransportDelivery =
      TurnAct.editStatus c ::
        (cs.map TurnAct.sendMessage ++ [TurnAct.sendMessage failureText])) ∧
    (handleTurn (invokeAgentModel evts b)).count TurnAct.closeStream = 1 ∧
    (invokeAgentModel evts b).chunks ≠ [] ∧
    (invokeAgentModel evts b).errored = true := by
  have hm : invokeAgentModel evts b = { chunks := c :: cs, errored := true } := by
    cases hv : invokeAgentModel evts b with
    | mk ch er =>
      rw [hv] at h1 h2
      simp only at h1 h2
      rw [h1, h2]
  rw [hm]
  refine ⟨?_, ?_, by simp, rfl⟩
  · show ((
      [TurnAct.setStop, TurnAct.cancelPresenter, TurnAct.logAssistant c,
        TurnAct.editStatus c]
      ++ cs.flatMap (fun t => [TurnAct.sendMessage t, TurnAct.logAssistant t])
      ++ [TurnAct.sendMessage failureText]
      ++ [TurnAct.setStop, TurnAct.closeStream]).filter isTransportDelivery) = _
    simp [List.filter_append, flatMap_send_log_transport, isTransportDelivery]
  · show (
      [TurnAct.setStop, TurnAct.cancelPresenter, TurnAct.logAssistant c,
        TurnAct.editStatus c]
      ++ cs.flatMap (fun t => [TurnAct.sendMessage t, TurnAct.logAssistant t])
      ++ [TurnAct.sendMessage failureText]
      ++ [TurnAct.setStop, TurnAct.closeStream]).count TurnAct.closeStream = 1
    simp [List.count_append, flatMap_send_log_no_close, List.count_cons]

/-- Witness for C4 at a concrete input: one non-final event with text
followed by a raise of the Event Source. -/
theorem controller_delivers_then_fails_witness :
    (invokeAgentModel [⟨[⟨some "hola"⟩], false⟩] true).chunks = ["hola"] ∧
    (invokeAgentModel [⟨[⟨some "hola"⟩], false⟩] true).errored = true ∧
    ((handleTurn (invokeAgentModel [⟨[⟨some "hola"⟩], false⟩] true)).filter
      isTransportDelivery =
      [TurnAct.editStatus "hola", TurnAct.sendMessage failureText]) := by
  have h := controller_delivers_then_fails [⟨[⟨some "hola"⟩], false⟩] true "hola" []
    (by decide) (by decide)
  exact ⟨by decide, h.2.2.2, by simpa using h.1⟩

/-- Counterexample to C5 as stated: a single non-final event with text. The
stream produces a chunk, yet the Bridge does not close cleanly — the worker
raises (`final_answer` stayed `None`, agent.py lines 190-191), the outcome is
errored, and the Controller sends a failure message after the chunk. -/
theorem bridge_no_final_marker_counterexample :
    (invokeAgentModel [⟨[⟨some "parcial"⟩], false⟩] false).chunks = ["parcial"] ∧
    (invokeAgentModel [⟨[⟨some "parcial"⟩], false⟩] false).errored = true ∧
    (handleTurn (invokeAgentModel [⟨[⟨some "parcial"⟩], false⟩] false)).count
      (TurnAct.sendMessage failureText) = 1 := by
  refine ⟨by decide, by decide, by decide⟩

/-- C5 amended: if no event carries the final marker, the worker raises
after the iteration; the sentinel is still pushed exactly once (the stream
always terminates), but the stream ends in the errored condition regardless
of whether chunks were produced, and the Controller's last transport action
delivers the generic failure message. -/
theorem bridge_no_final_marker_errors (evts : List Event) (b : Bool)
    (h : ∀ e ∈ evts, e.isFinal = false) :
    (invokeAgentModel evts b).errored = true ∧
    (workerItems evts b).count none = 1 ∧
    (((handleTurn (invokeAgentModel evts b)).filter isTransportDelivery).getLast?.map
      isFailureMsg) = some true := by
  have hfin : (runWorker evts none none).2 = none := runWorker_fin_const evts none none h
  refine ⟨by simp [invokeAgentModel, hfin], (workerItems_sentinel evts b).1, ?_⟩
  cases hc : (runWorker evts none none).1 with
  | nil =>
    have hm : invokeAgentModel evts b = { chunks := [], errored := true } := by
      simp [invokeAgentModel, hc, hfin]
    rw [hm]
    rfl
  | cons c cs =>
    have hm : invokeAgentModel evts b = { chunks := c :: cs, errored := true } := by
      simp [invokeAgentModel, hc, hfin]
    rw [hm]
    have hfil : (handleTurn { chunks := c :: cs, errored := true }).filter
        isTransportDelivery =
        (TurnAct.editStatus c :: cs.map TurnAct.sendMessage) ++
          [TurnAct.sendMessage failureText] := by
      show ((
        [TurnAct.setStop, TurnAct.cancelPresenter, TurnAct.logAssistant c,
          TurnAct.editStatus c]
        ++ cs.flatMap (fun t => [TurnAct.sendMessage t, TurnAct.logAssistant t])
        ++ [TurnAct.sendMessage failureText]
        ++ [TurnAct.setStop, TurnAct.closeStream]).filter isTransportDelivery) = _
      simp [List.filter_append, flatMap_send_log_transport, isTransportDelivery]
    rw [hfil, getLast_append_one]
    simp [isFailureMsg]

/-- Witness for the amended C5 at a concrete input: one non-final event. -/
theorem bridge_no_final_marker_errors_witness :
    (∀ e ∈ [(⟨[⟨some "avance"⟩], false⟩ : Event)], e.isFinal = false) ∧
    (invokeAgentModel [⟨[⟨some "avance"⟩], false⟩] false).errored = true ∧
    (workerItems [⟨[⟨some "avance"⟩], false⟩] false).count none = 1 := by
  have h := bridge_no_final_marker_errors [⟨[⟨some "avance"⟩], false⟩] false (by decide)
  exact ⟨by decide, h.1, h.2.1⟩

/-- C6: if the Event Source yields zero events or only events whose text is
empty after stripping (including a single final event with empty text), the
Controller ends the turn on the error path: the exact trace stops the
presenter (stop flag and task teardown) first, then edits the placeholder to
the single generic failure message, then closes the stream. -/
theorem controller_empty_stream_errored (evts : List Event) (b : Bool)
    (h : ∀ e ∈ evts, renderEvent e = none) :
    handleTurn (invokeAgentModel evts b) =
      [TurnAct.setStop, TurnAct.cancelPresenter, TurnAct.editStatus failureText,
        TurnAct.closeStream] ∧
    (handleTurn (invokeAgentModel evts b)).count (TurnAct.editStatus failureText) = 1 ∧
    (handleTurn (invokeAgentModel evts b)).count (TurnAct.sendMessage failureText) = 0 := by
  have hrw : runWorker evts none none = ([], none) := runWorker_all_none evts none none h
  have hm : invokeAgentModel evts b = { chunks := [], errored := true } := by
    simp [invokeAgentModel, hrw]
  rw [hm]
  exact ⟨rfl, by decide, by decide⟩

/-- Witness for C6 at a concrete input: a single final event whose only text
part is whitespace (empty after stripping). -/
theorem controller_empty_stream_errored_witness :
    (∀ e ∈ [(⟨[⟨some "   "⟩], true⟩ : Event)], renderEvent e = none) ∧
    handleTurn (invokeAgentModel [⟨[⟨some "   "⟩], true⟩] false) =
      [TurnAct.setStop, TurnAct.cancelPresenter, TurnAct.editStatus failureText,
        TurnAct.closeStream] :=
  ⟨by decide, (controller_empty_stream_errored [⟨[⟨some "   "⟩], true⟩] false (by decide)).1⟩

/-- Outcome of one `status_message.edit_text` call as classified by the
animation loop (handlers.py lines 152-168): success, a `BadRequest` whose
text contains "message is not modified" or "bad request", any other
`BadRequest`, or any other exception. -/
inductive EditOutcome where
  | ok
  | notModified
  | badRequestOther
  | otherError
  deriving Repr, DecidableEq

/-- Mutable state of `animate_status_message` (handlers.py lines 143-145):
the current frame index and the last successfully displayed text. -/
structure AnimState where
  frameIndex : Nat
  lastText : String
  deriving Repr, DecidableEq

/-- The animation frames (handlers.py line 143). -/
def animFrames : List String := ["⏳", "⌛"]

/-- Initial animation state (handlers.py lines 144-145): the frame index
starts at 1 and the placeholder text already shown is recorded. -/
def animInit : AnimState := { frameIndex := 1, lastText := "Procesando ⏳" }

/-- The text of the frame at index `i` (handlers.py line 149). -/
def frameText (i : Nat) : String := "Procesando " ++ animFrames.getD i ""

/-- One iteration of the animation loop body (handlers.py lines 148-168):
compute the new text; skip the edit when it equals the last displayed text
(only the frame index advances); otherwise issue the edit. On success the
displayed text is recorded and the index advances; on any raised outcome
every `except` arm merely sleeps and continues, leaving the state unchanged.
Returns the new state and the edit call issued, if any. -/
def animateIter (st : AnimState) (r : EditOutcome) :
    AnimState × Option (String × EditOutcome) :=
  let newText := frameText st.frameIndex
  if newText = st.lastText then
    ({ st with frameIndex := (st.frameIndex + 1) % animFrames.length }, none)
  else
    match r with
    | EditOutcome.ok =>
      ({ frameIndex := (st.frameIndex + 1) % animFrames.length, lastText := newText },
        some (newText, EditOutcome.ok))
    | e => (st, some (newText, e))

/-- The animation loop run over a finite schedule of edit outcomes: the loop
iterates until the stop flag is observed; the schedule length is the number
of wake-ups before the stop flag is seen, and each entry is the outcome the
transport would give to an edit issued on that iteration. Returns the final
state and the list of edit calls issued, in order. -/
def animateRun : AnimState → List EditOutcome → AnimState × List (String × EditOutcome)
  | st, [] => (st, [])
  | st, r :: rs =>
    let step := animateIter st r
    let rest := animateRun step.1 rs
    (rest.1, step.2.toList ++ rest.2)

/-- Counterexample to C7 as stated: a transport error outside the "message
unmodified" class (`otherError`) does not make the loop exit — on the next
wake-up the loop issues another edit. Were the claim true, no edit call
could follow the errored one. -/
theorem animation_loop_survives_error_counterexample :
    (animateRun animInit [EditOutcome.otherError, EditOutcome.ok]).2 =
      [("Procesando ⌛", EditOutcome.otherError), ("Procesando ⌛", EditOutcome.ok)] ∧
    (animateRun animInit [EditOutcome.otherError, EditOutcome.ok]).2.length = 2 := by
  refine ⟨by decide, by decide⟩

/-- C7 amended: every transport error — of the "message unmodified" class
and of every other class — is swallowed and the loop retries on the next
cycle; the loop never exits early, so running it on a concatenated schedule
is the same as running the two halves in sequence. In addition an errored
edit leaves the loop state unchanged (a pure retry). -/
theorem animation_loop_swallows_all_errors (st : AnimState)
    (s1 s2 : List EditOutcome) :
    animateRun st (s1 ++ s2) =
      ((animateRun (animateRun st s1).1 s2).1,
        (animateRun st s1).2 ++ (animateRun (animateRun st s1).1 s2).2) := by
  induction s1 generalizing st with
  | nil => simp [animateRun]
  | cons r rs ih =>
    have h1 : animateRun st ((r :: rs) ++ s2) =
        ((animateRun (animateIter st r).1 (rs ++ s2)).1,
          (animateIter st r).2.toList ++ (animateRun (animateIter st r).1 (rs ++ s2)).2) := rfl
    have h2 : animateRun st (r :: rs) =
        ((animateRun (animateIter st r).1 rs).1,
          (animateIter st r).2.toList ++ (animateRun (animateIter st r).1 rs).2) := rfl
    rw [h1, h2, ih (animateIter st r).1]
    simp [List.append_assoc]

/-- The texts of the successful edits among a list of issued edit calls. -/
def okTexts (calls : List (String × EditOutcome)) : List String :=
  (calls.filter (fun c => c.2 == EditOutcome.ok)).map Prod.fst

lemma okTexts_cons_ok (t : String) (l : List (String × EditOutcome)) :
    okTexts ((t, EditOutcome.ok) :: l) = t :: okTexts l := by
  simp [okTexts]

lemma okTexts_cons_err (t : String) (e : EditOutcome) (l : List (String × EditOutcome))
    (he : e ≠ EditOutcome.ok) :
    okTexts ((t, e) :: l) = okTexts l := by
  simp [okTexts, List.filter_cons, he]

/-- Invariant of the animation loop: starting from any state, the texts of
the successful edits never repeat consecutively, and the first successful
edit differs from the currently displayed text. -/
lemma anim_ok_chain (sched : List EditOutcome) : ∀ st : AnimState,
    (∀ t : String, (okTexts (animateRun st sched).2).head? = some t → t ≠ st.lastText) ∧
    List.Chain' (fun a b => a ≠ b) (okTexts (animateRun st sched).2) := by
  induction sched with
  | nil =>
    intro st
    refine ⟨?_, ?_⟩ <;> simp [animateRun, okTexts]
  | cons r rs ih =>
    intro st
    have hrun : animateRun st (r :: rs) =
        ((animateRun (animateIter st r).1 rs).1,
          (animateIter st r).2.toList ++ (animateRun (animateIter st r).1 rs).2) := rfl
    by_cases hfe : frameText st.frameIndex = st.lastText
    · have hrun2 : animateRun st (r :: rs) =
          animateRun (AnimState.mk ((st.frameIndex + 1) % animFrames.length) st.lastText)
            rs := by
        rw [hrun]
        have hstep : animateIter st r =
            (AnimState.mk ((st.frameIndex + 1) % animFrames.length) st.lastText, none) := by
          simp [animateIter, hfe]
        rw [hstep]
        rfl
      rw [hrun2]
      obtain ⟨ihh, ihc⟩ :=
        ih (AnimState.mk ((st.frameIndex + 1) % animFrames.length) st.lastText)
      exact ⟨fun t ht => ihh t ht, ihc⟩
    · by_cases hok : r = EditOutcome.ok
      · have hrun2 : animateRun st (r :: rs) =
            ((animateRun (AnimState.mk ((st.frameIndex + 1) % animFrames.length)
                (frameText st.frameIndex)) rs).1,
              (frameText st.frameIndex, EditOutcome.ok) ::
                (animateRun (AnimState.mk ((st.frameIndex + 1) % animFrames.length)
                  (frameText st.frameIndex)) rs).2) := by
          rw [hrun]
          have hstep : animateIter st r =
              (AnimState.mk ((st.frameIndex + 1) % animFrames.length)
                (frameText st.frameIndex),
                some (frameText st.frameIndex, EditOutcome.ok)) := by
            simp [animateIter, hfe, hok]
          rw [hstep]
          rfl
        rw [hrun2]
        obtain ⟨ihh, ihc⟩ := ih (AnimState.mk ((st.frameIndex + 1) % animFrames.length)
          (frameText st.frameIndex))
        constructor
        · intro t ht
          rw [okTexts_cons_ok, List.head?_cons] at ht
          have : t = frameText st.frameIndex := (Option.some.inj ht).symm
          rw [this]
          exact hfe
        · rw [okTexts_cons_ok]
          refine List.chain'_cons'.mpr ⟨?_, ihc⟩
          intro b hb
          exact Ne.symm (ihh b (Option.mem_def.mp hb))
      · have hrun2 : animateRun st (r :: rs) =
            ((animateRun st rs).1,
              (frameText st.frameIndex, r) :: (animateRun st rs).2) := by
          rw [hrun]
          have hstep : animateIter st r = (st, some (frameText st.frameIndex, r)) := by
            simp [animateIter, hfe, hok]
          rw [hstep]
          rfl
        rw [hrun2]
        obtain ⟨ihh, ihc⟩ := ih st
        rw [okTexts_cons_err _ _ _ hok]
        exact ⟨ihh, ihc⟩

/-- Counterexample to C8 as stated: when an edit call fails (here with a
`BadRequest` outside the unmodified class), `last_text` is not updated, so
the next cycle issues an edit with the very same text — two consecutive edit
calls with identical text. -/
theorem animation_duplicate_edit_counterexample :
    ((animateRun animInit [EditOutcome.badRequestOther, EditOutcome.ok]).2.map Prod.fst =
      ["Procesando ⌛", "Procesando ⌛"]) ∧
    ¬ List.Chain' (fun a b => a ≠ b)
      ((animateRun animInit [EditOutcome.badRequestOther, EditOutcome.ok]).2.map
        Prod.fst) := by
  refine ⟨by decide, ?_⟩
  intro hch
  rw [show ((animateRun animInit [EditOutcome.badRequestOther, EditOutcome.ok]).2.map
    Prod.fst) = ["Procesando ⌛", "Procesando ⌛"] from by decide] at hch
  exact (List.chain'_cons.mp hch).1 rfl

/-- C8 amended: the animation loop never issues an edit whose text equals
the last successfully displayed text, hence among the successful edits no
two consecutive ones have identical text (a failed edit may be reissued with
the same text on the next cycle). -/
theorem animation_no_consecutive_equal_success (sched : List EditOutcome) :
    List.Chain' (fun a b => a ≠ b) (okTexts (animateRun animInit sched).2) :=
  (anim_ok_chain sched animInit).2

/-- Whether the async generator of `invoke_agent` has finished (its
`finally`, which awaits the worker task, has run) or is still suspended. -/
inductive GenStatus where
  | running
  | finished
  deriving Repr, DecidableEq

/-- The Invocation Stream handle: the generator status and whether the
worker task has been awaited (joined). -/
structure StreamHandle where
  status : GenStatus
  workerJoined : Bool
  deriving Repr, DecidableEq

/-- Side effects close can have: awaiting (joining) the worker task. -/
inductive CloseEffect where
  | joinWorker
  deriving Repr, DecidableEq

/-- `aclose()` on the `invoke_agent` generator (agent.py lines 225-232): on
a suspended generator it throws GeneratorExit at the yield point, running
the `finally` block which awaits the worker task before the generator
completes; on an already-finished generator it is a no-op. -/
def acloseStream : StreamHandle → StreamHandle × List CloseEffect
  | { status := GenStatus.finished, workerJoined := j } =>
    ({ status := GenStatus.finished, workerJoined := j }, [])
  | { status := GenStatus.running, workerJoined := _ } =>
    ({ status := GenStatus.finished, workerJoined := true }, [CloseEffect.joinWorker])

/-- C9: closing the Invocation Stream is idempotent — after the first
`close()` returns the worker task has been awaited (joined), and a second
`close()` returns the same handle with no additional side effects. The
hypothesis states the generator invariant that a finished generator has
already run its `finally` (joined the worker). -/
theorem stream_close_idempotent (s : StreamHandle)
    (h : s.status = GenStatus.finished → s.workerJoined = true) :
    (acloseStream s).1.workerJoined = true ∧
    acloseStream (acloseStream s).1 = ((acloseStream s).1, []) := by
  obtain ⟨st, j⟩ := s
  cases st with
  | running => simp [acloseStream]
  | finished => exact ⟨h rfl, by simp [acloseStream]⟩

/-- Witness for C9 at a concrete handle: a stream still running with the
worker not yet joined. -/
theorem stream_close_idempotent_witness :
    (acloseStream { status := GenStatus.running, workerJoined := false }).1.workerJoined =
      true ∧
    acloseStream
        (acloseStream { status := GenStatus.running, workerJoined := false }).1 =
      ((acloseStream { status := GenStatus.running, workerJoined := false }).1, []) :=
  stream_close_idempotent { status := GenStatus.running, workerJoined := false } (by decide)

/-- The application name constant (agent.py line 72), used to construct both
runners (agent.py lines 130-131). -/
def APP_NAME : String := "agents"

/-- The user id constant (agent.py line 73). -/
def USER_ID : String := "1234"

/-- The session id constant (agent.py line 74). -/
def SESSION_ID : String := "session1234"

/-- The configuration of a runner that matters for session identity: its
application name. -/
structure RunnerCfg where
  appName : String
  deriving Repr, DecidableEq

/-- `runner` (agent.py line 130). -/
def runnerCfg : RunnerCfg := { appName := APP_NAME }

/-- `telegram_runner` (agent.py line 131); both runners share the one
`InMemorySessionService` instance. -/
def telegramRunnerCfg : RunnerCfg := { appName := APP_NAME }

/-- The session identity in the shared session service. -/
structure SessionKey where
  appName : String
  userId : String
  sessionId : String
  deriving Repr, DecidableEq

/-- The session key `_run_agent_sync` passes to the Event Source (agent.py
lines 146-152): the runner is selected by `use_telegram_tools`, and
`runner.run` is called with the constant `USER_ID` and `SESSION_ID`; the
query and the phone number play no part in it. -/
def sessionKeyFor (_query : String) (_phoneNumber : Option String)
    (useTelegramTools : Bool) : SessionKey :=
  let active := if useTelegramTools then telegramRunnerCfg else runnerCfg
  { appName := active.appName, userId := USER_ID, sessionId := SESSION_ID }

/-- C10: every invocation of the agent, whatever the query, the caller's
phone number and the tool-set selector, runs against the constant session
key (app "agents", user "1234", session "session1234"); hence any two
invocations on behalf of different users share the same conversation state
in the shared session service — runs are not isolated per user. -/
theorem session_key_shared_across_users :
    (∀ (q1 : String) (p1 : Option String) (t1 : Bool) (q2 : String) (p2 : Option String)
      (t2 : Bool), sessionKeyFor q1 p1 t1 = sessionKeyFor q2 p2 t2) ∧
    (∀ (q : String) (p : Option String) (t : Bool),
      sessionKeyFor q p t =
        { appName := "agents", userId := "1234", sessionId := "session1234" }) := by
  constructor
  · intro q1 p1 t1 q2 p2 t2
    cases t1 <;> cases t2 <;> rfl
  · intro q p t
    cases t <;> rfl

/-- Parameter names of `invoke_agent` (agent.py lines 197-199): `query`,
`phone_number`, `use_telegram_tools`. -/
def invokeAgentParams : List String := ["query", "phone_number", "use_telegram_tools"]

/-- Keyword arguments used at the call site handlers.py lines 183-187 (the
message text is passed positionally). -/
def handleTextCallKeywords : List String := ["telegram_id", "use_telegram_tools"]

/-- Python call binding: calling a function with a keyword argument that
names no parameter raises TypeError at the call site, before the function
body (here: before the async generator is even created). -/
def invokeAgentCallOk : Bool :=
  handleTextCallKeywords.all (fun k => invokeAgentParams.contains k)

/-- The trace of `handle_text` (handlers.py lines 92-274): best-effort user
upsert and user-message logging, the placeholder message, the start of the
two presenter loops (lines 179-180), then the `invoke_agent` call (lines
183-187). That call sits outside every try block: if its keyword binding
fails, the TypeError propagates and the handler ends right there, before the
turn logic of lines 189-274 runs. -/
def handleTextActions (evts : List Event) (srcRaises : Bool) : List TurnAct :=
  [TurnAct.logUpsertUser, TurnAct.logUserMessage, TurnAct.sendPlaceholder,
    TurnAct.startPresenter]
  ++ (if invokeAgentCallOk then handleTurn (invokeAgentModel evts srcRaises) else [])

/-- C1 is violated by the code: the call at handlers.py line 183 passes the
keyword `telegram_id`, which `invoke_agent` does not accept, so every turn
raises TypeError at the call site — after the presenter loops were started
but before any path that sets the stop flag or closes a stream. The handler
therefore returns (by propagating TypeError) with the presenter loops still
running, for every Event Source behaviour. -/
theorem handle_text_orphans_presenter :
    invokeAgentCallOk = false ∧
    ∀ (evts : List Event) (b : Bool),
      handleTextActions evts b =
        [TurnAct.logUpsertUser, TurnAct.logUserMessage, TurnAct.sendPlaceholder,
          TurnAct.startPresenter] ∧
      TurnAct.startPresenter ∈ handleTextActions evts b ∧
      TurnAct.setStop ∉ handleTextActions evts b ∧
      TurnAct.closeStream ∉ handleTextActions evts b := by
  refine ⟨by decide, ?_⟩
  intro evts b
  have h : handleTextActions evts b =
      [TurnAct.logUpsertUser, TurnAct.logUserMessage, TurnAct.sendPlaceholder,
        TurnAct.startPresenter] := rfl
  refine ⟨h, ?_, ?_, ?_⟩ <;> rw [h] <;> decide
